import Mathlib

/-!
Verification development for the `filterexpression` Go package
(`jaqx0r/filterexpression`), a parser for AIP-160 list-filter expressions
built on the `participle` parser-generator library, plus a visitor engine
over the resulting AST.

The embedding below translates:
  * the token rules of `var Lexer` in `filterexpression.go` (a
    `lexer.MustSimple` rule list: rules are attempted in declaration order
    at each input position, the first rule that matches wins);
  * the grammar carried by the struct tags of `filterexpression.go`,
    interpreted with participle's parsing semantics: ordered alternatives,
    greedy repetition, and recovery from a failed branch only when that
    branch consumed at most `UseLookahead` tokens (the package builds
    `DefaultParser` with `participle.UseLookahead(7)`);
  * the `Accept`/`Visit` traversal of `visitor.go`.

Machine strings are Lean `String`s, positions are `Nat` token/char indexes.
-/

set_option maxRecDepth 8192
set_option maxHeartbeats 4000000

namespace FilterExpr

/-! ## Tokens and the lexer

`var Lexer = lexer.MustSimple([]lexer.SimpleRule{ Text, String, Keyword,
Whitespace, Operators })`.  Note the rule order: `Text` precedes `Keyword`,
so at any position where `AND`/`OR`/`NOT` occurs the `Text` rule already
matches and wins.
-/

inductive TokType where
  | text
  | str
  | keyword
  | whitespace
  | operators
deriving DecidableEq, Repr

structure Token where
  ty : TokType
  val : String
deriving DecidableEq, Repr

/-- Character class of the `Text` rule, regexp `[a-zA-Z0-9_]+` (also the
word-character class used by the `\b` boundaries of the `Keyword` rule). -/
def isTextChar (c : Char) : Bool :=
  c.isAlphanum || c = '_'

/-- Character class of the `Whitespace` rule, regexp `[ \t\n\r]+`. -/
def isWSChar (c : Char) : Bool :=
  c = ' ' || c = '\t' || c = '\n' || c = '\r'

/-- Single characters matched by the trailing class of the `Operators`
rule, regexp `<=|>=|!=|[=\:.<>=(),-]`. -/
def isOpChar (c : Char) : Bool :=
  c = '=' || c = ':' || c = '.' || c = '<' || c = '>' ||
  c = '(' || c = ')' || c = ',' || c = '-'

def isQuote (c : Char) : Bool :=
  c = '\'' || c = '"'

/-- Body of the `String` rule after the opening quote, regexp
`['"]\*?(\\'|\\"|[^"'])*\*?['"]`, with the leftmost-greedy semantics of the
Go regexp engine.  The alternation `\\'|\\"|[^"']` prefers consuming an
escape pair; when no closing quote is ever reached the engine backs off the
most recent escape pair, re-reading its backslash via `[^"']` so that its
quote terminates the string.  (The `\*?` pieces never change the matched
span: a `*` is also matched by `[^"']`.)  Returns the consumed body
(closing quote included) and the rest of the input. -/
def strBody : List Char → Option (List Char × List Char)
  | [] => none
  | [c] => if isQuote c then some ([c], []) else none
  | c :: q :: rest2 =>
    if isQuote c then some ([c], q :: rest2)
    else if c = '\\' && isQuote q then
      match strBody rest2 with
      | some (cs2, r) => some (c :: q :: cs2, r)
      | none => some ([c, q], rest2)
    else
      match strBody (q :: rest2) with
      | some (cs2, r) => some (c :: cs2, r)
      | none => none

/-- `Text` rule: `[a-zA-Z0-9_]+`. -/
def matchText (cs : List Char) : Option (Token × List Char) :=
  let w := cs.takeWhile isTextChar
  if w.isEmpty then none
  else some (⟨TokType.text, String.mk w⟩, cs.dropWhile isTextChar)

/-- `String` rule: `['"]\*?(\\'|\\"|[^"'])*\*?['"]`. -/
def matchStringTok (cs : List Char) : Option (Token × List Char) :=
  match cs with
  | [] => none
  | c :: rest =>
    if isQuote c then
      match strBody rest with
      | some (body, r) => some (⟨TokType.str, String.mk (c :: body)⟩, r)
      | none => none
    else none

/-- One keyword alternative of the `Keyword` rule: the word `w` followed by
a word boundary.  The leading `\b` holds whenever the rule is attempted at
a position starting with `A`/`O`/`N` (a word character). -/
def matchKw (w : String) (cs : List Char) : Option (Token × List Char) :=
  let ws := w.data
  if cs.take ws.length = ws then
    match cs.drop ws.length with
    | [] => some (⟨TokType.keyword, w⟩, [])
    | d :: rest2 =>
      if isTextChar d then none
      else some (⟨TokType.keyword, w⟩, d :: rest2)
  else none

/-- `Keyword` rule: `\b(AND|OR|NOT)\b`.  Unreachable in practice because
the `Text` rule is attempted first and already matches these words; kept to
mirror the source rule list. -/
def matchKeywordTok (cs : List Char) : Option (Token × List Char) :=
  (matchKw "AND" cs).orElse fun _ =>
    (matchKw "OR" cs).orElse fun _ =>
      matchKw "NOT" cs

/-- `Whitespace` rule: `[ \t\n\r]+`. -/
def matchWS (cs : List Char) : Option (Token × List Char) :=
  let w := cs.takeWhile isWSChar
  if w.isEmpty then none
  else some (⟨TokType.whitespace, String.mk w⟩, cs.dropWhile isWSChar)

/-- `Operators` rule: `<=|>=|!=|[=\:.<>=(),-]`, alternatives preferred left
to right, so the two-character operators win over their one-character
prefixes. -/
def matchOps (cs : List Char) : Option (Token × List Char) :=
  match cs with
  | '<' :: '=' :: rest => some (⟨TokType.operators, "<="⟩, rest)
  | '>' :: '=' :: rest => some (⟨TokType.operators, ">="⟩, rest)
  | '!' :: '=' :: rest => some (⟨TokType.operators, "!="⟩, rest)
  | c :: rest =>
    if isOpChar c then some (⟨TokType.operators, String.mk [c]⟩, rest)
    else none
  | [] => none

/-- Attempt the five rules in their declaration order; the first match
wins, as in participle's simple (stateful) lexer. -/
def matchRule (cs : List Char) : Option (Token × List Char) :=
  (matchText cs).orElse fun _ =>
    (matchStringTok cs).orElse fun _ =>
      (matchKeywordTok cs).orElse fun _ =>
        (matchWS cs).orElse fun _ =>
          matchOps cs

/-- Run the lexer.  On failure the error is the character offset at which
no rule matched.  Fuel only bounds the number of tokens; every rule
consumes at least one character, so `length + 1` fuel never runs out. -/
def lexAux : Nat → Nat → List Char → Except Nat (List Token)
  | 0, off, cs => if cs.isEmpty then Except.ok [] else Except.error off
  | fuel + 1, off, cs =>
    if cs.isEmpty then Except.ok []
    else
      match matchRule cs with
      | some (t, rest) =>
        match lexAux fuel (off + (cs.length - rest.length)) rest with
        | Except.ok ts => Except.ok (t :: ts)
        | Except.error e => Except.error e
      | none => Except.error off

def lex (s : String) : Except Nat (List Token) :=
  lexAux (s.length + 1) 0 s.data

example : lex "a b" =
    Except.ok [⟨TokType.text, "a"⟩, ⟨TokType.whitespace, " "⟩,
      ⟨TokType.text, "b"⟩] := rfl

example : lex "AND" = Except.ok [⟨TokType.text, "AND"⟩] := rfl

example : lex "a<=b" =
    Except.ok [⟨TokType.text, "a"⟩, ⟨TokType.operators, "<="⟩,
      ⟨TokType.text, "b"⟩] := rfl

example : lex "'abc\"" = Except.ok [⟨TokType.str, "'abc\""⟩] := rfl

example : lex "\"*and the*\"" =
    Except.ok [⟨TokType.str, "\"*and the*\""⟩] := rfl

example : lex "'abc" = Except.error 0 := rfl

/-! ## The AST

One type per struct of `filterexpression.go`.  Go represents each
alternation (`@@ | @@` tags) by populating exactly one of two fields and
leaving the other at its zero value (a nil pointer); those pairs are
embedded as pairs of `Option`s.  `Pos lexer.Position` metadata fields carry
no traversal or parsing semantics and are omitted.  The optional
`( Comparator Arg )?` group of `Restriction` is embedded as two `Option`s
that are populated together. -/

/-- `type Comparator int` with its seven constants. -/
inductive Comparator where
  | compLessEquals
  | compLessThan
  | compGreaterEquals
  | compGreaterThan
  | compNotEquals
  | compEquals
  | compHas
deriving DecidableEq, Repr

/-- `comparatorMap`, the token-text-to-enum mapping used by
`Comparator.Capture`. -/
def comparatorMap : String → Option Comparator
  | "<=" => some Comparator.compLessEquals
  | "<" => some Comparator.compLessThan
  | ">=" => some Comparator.compGreaterEquals
  | ">" => some Comparator.compGreaterThan
  | "!=" => some Comparator.compNotEquals
  | "=" => some Comparator.compEquals
  | ":" => some Comparator.compHas
  | _ => none

/-- `type Value struct { Text string; String string }`, grammar
`@Text | @String`; the unmatched alternative leaves its field at the Go
zero value `""`. -/
structure Value where
  text : String
  string : String
deriving DecidableEq, Repr

/-- `type Field struct { Value *Value; Keyword string }`, grammar
`@@ | @( "AND" | "OR" | "NOT" )`. -/
structure Field where
  value : Option Value
  keyword : String
deriving DecidableEq, Repr

/-- `type Name struct { Text string; Keyword string }`, grammar
`@Text | @( "AND" | "OR" | "NOT" )`. -/
structure Name where
  text : String
  keyword : String
deriving DecidableEq, Repr

/-- `type Member struct { Value Value; Fields []Field }`, grammar
`@@ ( "." @@ )*`. -/
structure Member where
  value : Value
  fields : List Field
deriving DecidableEq, Repr

mutual

/-- `type Expression struct { Sequence []Sequence }`, grammar
`@@ ( "AND" @@ )*`. -/
inductive Expression where
  | mk (sequence : List Sequence) : Expression

/-- `type Sequence struct { Factor []Factor }`, grammar `@@+`. -/
inductive Sequence where
  | mk (factor : List Factor) : Sequence

/-- `type Factor struct { Term []Term }`, grammar `@@ ( "OR" @@ )*`. -/
inductive Factor where
  | mk (term : List Term) : Factor

/-- `type Term struct { Negate bool; Simple Simple }`, grammar
`@( "NOT" | "-" )? @@`. -/
inductive Term where
  | mk (negate : Bool) (simple : Simple) : Term

/-- `type Simple struct { Restriction *Restriction; Composite *Composite }`,
grammar `@@ | @@`. -/
inductive Simple where
  | mk (restriction : Option Restriction) (composite : Option Composite) :
      Simple

/-- `type Restriction struct { Comparable Comparable; Comparator Comparator;
Arg Arg }`, grammar `@@ ( @(comparators) @@ )?`; the optional group
populates `comparator` and `arg` together. -/
inductive Restriction where
  | mk (comparable : Comparable) (comparator : Option Comparator)
      (arg : Option Arg) : Restriction

/-- `type Comparable struct { Function *Function; Member *Member }`,
grammar `@@ | @@`. -/
inductive Comparable where
  | mk (function : Option Function) (member : Option Member) : Comparable

/-- `type Function struct { Name []Name; Args []Arg }`, grammar
`@@ ( "." @@ )* "(" ( @@ ( "," @@ )* )? ")"`. -/
inductive Function where
  | mk (name : List Name) (args : List Arg) : Function

/-- `type Composite struct { Expression Expression }`, grammar
`"(" @@ ")"`. -/
inductive Composite where
  | mk (expression : Expression) : Composite

/-- `type Arg struct { Comparable *Comparable; Composite *Composite }`,
grammar `@@ | @@`. -/
inductive Arg where
  | mk (comparable : Option Comparable) (composite : Option Composite) : Arg

end

/-- `type Filter struct { Expression []Expression }`, grammar `@@*`. -/
structure Filter where
  expression : List Expression

def Expression.sequence : Expression → List Sequence
  | .mk s => s

def Sequence.factor : Sequence → List Factor
  | .mk f => f

def Factor.term : Factor → List Term
  | .mk t => t

def Term.negate : Term → Bool
  | .mk n _ => n

def Term.simple : Term → Simple
  | .mk _ s => s

def Simple.restriction : Simple → Option Restriction
  | .mk r _ => r

def Simple.composite : Simple → Option Composite
  | .mk _ c => c

def Restriction.comparable : Restriction → Comparable
  | .mk c _ _ => c

def Restriction.comparator : Restriction → Option Comparator
  | .mk _ c _ => c

def Restriction.arg : Restriction → Option Arg
  | .mk _ _ a => a

def Comparable.function : Comparable → Option Function
  | .mk f _ => f

def Comparable.member : Comparable → Option Member
  | .mk _ m => m

def Function.name : Function → List Name
  | .mk n _ => n

def Function.args : Function → List Arg
  | .mk _ a => a

def Composite.expression : Composite → Expression
  | .mk e => e

def Arg.comparable : Arg → Option Comparable
  | .mk c _ => c

def Arg.composite : Arg → Option Composite
  | .mk _ c => c

/-! ## The parser

participle builds a recursive-descent parser from the struct tags.  Its
engine semantics, mirrored here:

  * alternatives (`|`) are tried in order and the first success commits;
  * repetitions (`*`, `+`) and options (`?`) are greedy;
  * a failed attempt is recovered from (next alternative tried, repetition
    or option ended) only when the failing branch had consumed at most
    `lookahead` tokens past the point where the attempt started; a deeper
    failure is propagated ("fatal");
  * of several recoverable failures the deepest (largest cursor) is kept;
  * a grammar literal such as `"AND"` matches any token whose text equals
    the literal, whatever its token type; `@Text` / `@String` match by
    token type.

A failure carries the token cursor the failing branch had reached.  A
success carries the parsed value and the new cursor.  `fuel` only bounds
recursion depth; every nesting level and every repetition step consumes at
least one token, so the allowance made in `ParseWith` never runs out on
the concrete inputs considered here. -/

abbrev PRes (α : Type) := Except Nat (α × Nat)

/-- Does the token at cursor `i` have literal text `s`? -/
def isLit (toks : List Token) (i : Nat) (s : String) : Bool :=
  match toks.get? i with
  | some t => t.val = s
  | none => false

def isKeywordVal (s : String) : Bool :=
  s = "AND" || s = "OR" || s = "NOT"

/-- `Name := @Text | @( "AND" | "OR" | "NOT" )`. -/
def pName (toks : List Token) (i : Nat) : PRes Name :=
  match toks.get? i with
  | some t =>
    if t.ty = TokType.text then Except.ok (Name.mk t.val "", i + 1)
    else if isKeywordVal t.val then Except.ok (Name.mk "" t.val, i + 1)
    else Except.error i
  | none => Except.error i

/-- `Value := @Text | @String`. -/
def pValue (toks : List Token) (i : Nat) : PRes Value :=
  match toks.get? i with
  | some t =>
    if t.ty = TokType.text then Except.ok (Value.mk t.val "", i + 1)
    else if t.ty = TokType.str then Except.ok (Value.mk "" t.val, i + 1)
    else Except.error i
  | none => Except.error i

/-- `Field := @@ | @( "AND" | "OR" | "NOT" )` (the `@@` being `Value`). -/
def pField (toks : List Token) (i : Nat) : PRes Field :=
  match pValue toks i with
  | Except.ok (v, j) => Except.ok (Field.mk (some v) "", j)
  | Except.error _ =>
    match toks.get? i with
    | some t =>
      if isKeywordVal t.val then Except.ok (Field.mk none t.val, i + 1)
      else Except.error i
    | none => Except.error i

/-- The `( "." @@ )*` tail of `Member`. -/
def pDotFields (la : Nat) (toks : List Token) :
    Nat → Nat → PRes (List Field)
  | 0, i => Except.error i
  | fuel + 1, i =>
    if isLit toks i "." then
      match pField toks (i + 1) with
      | Except.ok (f, j) =>
        match pDotFields la toks fuel j with
        | Except.ok (fs, k) => Except.ok (f :: fs, k)
        | Except.error e => Except.error e
      | Except.error e =>
        if e ≤ i + la then Except.ok ([], i) else Except.error e
    else Except.ok ([], i)

/-- `Member := @@ ( "." @@ )*`. -/
def pMember (la : Nat) (toks : List Token) (fuel i : Nat) : PRes Member :=
  match pValue toks i with
  | Except.ok (v, j) =>
    match pDotFields la toks fuel j with
    | Except.ok (fs, k) => Except.ok (Member.mk v fs, k)
    | Except.error e => Except.error e
  | Except.error e => Except.error e

/-- The `( "." @@ )*` tail of the `Function` name chain. -/
def pDotNames (la : Nat) (toks : List Token) :
    Nat → Nat → PRes (List Name)
  | 0, i => Except.error i
  | fuel + 1, i =>
    if isLit toks i "." then
      match pName toks (i + 1) with
      | Except.ok (n, j) =>
        match pDotNames la toks fuel j with
        | Except.ok (ns, k) => Except.ok (n :: ns, k)
        | Except.error e => Except.error e
      | Except.error e =>
        if e ≤ i + la then Except.ok ([], i) else Except.error e
    else Except.ok ([], i)

/-- All grammar productions at one fuel level.  The grammar is mutually
recursive (`Composite` and `Arg` re-enter `Expression`/`Comparable`), so
the production parsers are built together by recursion on fuel: every
production at level `fuel + 1` invokes productions of level `fuel`.  Each
field parses from a token cursor and is one production of the struct-tag
grammar. -/
structure Prods where
  expr : Nat → PRes Expression
  andSeqs : Nat → PRes (List Sequence)
  seq : Nat → PRes Sequence
  factorsMany : Nat → PRes (List Factor)
  factor : Nat → PRes Factor
  orTerms : Nat → PRes (List Term)
  term : Nat → PRes Term
  simple : Nat → PRes Simple
  restriction : Nat → PRes Restriction
  comparable : Nat → PRes Comparable
  function : Nat → PRes Function
  argsOpt : Nat → PRes (List Arg)
  commaArgs : Nat → PRes (List Arg)
  arg : Nat → PRes Arg
  composite : Nat → PRes Composite

/-- Exhausted fuel: every production fails at its own cursor. -/
def failProds : Prods where
  expr := fun i => Except.error i
  andSeqs := fun i => Except.error i
  seq := fun i => Except.error i
  factorsMany := fun i => Except.error i
  factor := fun i => Except.error i
  orTerms := fun i => Except.error i
  term := fun i => Except.error i
  simple := fun i => Except.error i
  restriction := fun i => Except.error i
  comparable := fun i => Except.error i
  function := fun i => Except.error i
  argsOpt := fun i => Except.error i
  commaArgs := fun i => Except.error i
  arg := fun i => Except.error i
  composite := fun i => Except.error i

/-- The production parsers, one field per production of the struct-tag
grammar of `filterexpression.go`. -/
def prods (la : Nat) (toks : List Token) : Nat → Prods
  | 0 => failProds
  | fuel + 1 =>
    let P := prods la toks fuel
    { -- `Expression := @@ ( "AND" @@ )*` over `Sequence`.
      expr := fun i =>
        match P.seq i with
        | Except.ok (s, j) =>
          match P.andSeqs j with
          | Except.ok (ss, k) => Except.ok (Expression.mk (s :: ss), k)
          | Except.error e => Except.error e
        | Except.error e => Except.error e
      -- The `( "AND" @@ )*` tail of `Expression`.
      andSeqs := fun i =>
        if isLit toks i "AND" then
          match P.seq (i + 1) with
          | Except.ok (s, j) =>
            match P.andSeqs j with
            | Except.ok (ss, k) => Except.ok (s :: ss, k)
            | Except.error e => Except.error e
          | Except.error e =>
            if e ≤ i + la then Except.ok ([], i) else Except.error e
        else Except.ok ([], i)
      -- `Sequence := @@+` over `Factor`.
      seq := fun i =>
        match P.factor i with
        | Except.ok (f, j) =>
          match P.factorsMany j with
          | Except.ok (fs, k) => Except.ok (Sequence.mk (f :: fs), k)
          | Except.error e => Except.error e
        | Except.error e => Except.error e
      -- The greedy tail of `@@+`: zero or more further factors.
      factorsMany := fun i =>
        match P.factor i with
        | Except.ok (f, j) =>
          match P.factorsMany j with
          | Except.ok (fs, k) => Except.ok (f :: fs, k)
          | Except.error e => Except.error e
        | Except.error e =>
          if e ≤ i + la then Except.ok ([], i) else Except.error e
      -- `Factor := @@ ( "OR" @@ )*` over `Term`.
      factor := fun i =>
        match P.term i with
        | Except.ok (t, j) =>
          match P.orTerms j with
          | Except.ok (ts, k) => Except.ok (Factor.mk (t :: ts), k)
          | Except.error e => Except.error e
        | Except.error e => Except.error e
      -- The `( "OR" @@ )*` tail of `Factor`.
      orTerms := fun i =>
        if isLit toks i "OR" then
          match P.term (i + 1) with
          | Except.ok (t, j) =>
            match P.orTerms j with
            | Except.ok (ts, k) => Except.ok (t :: ts, k)
            | Except.error e => Except.error e
          | Except.error e =>
            if e ≤ i + la then Except.ok ([], i) else Except.error e
        else Except.ok ([], i)
      -- `Term := @( "NOT" | "-" )? @@` over `Simple`.
      term := fun i =>
        let neg := isLit toks i "NOT" || isLit toks i "-"
        let j := if neg then i + 1 else i
        match P.simple j with
        | Except.ok (s, k) => Except.ok (Term.mk neg s, k)
        | Except.error e => Except.error e
      -- `Simple := Restriction | Composite`.
      simple := fun i =>
        match P.restriction i with
        | Except.ok (r, j) => Except.ok (Simple.mk (some r) none, j)
        | Except.error e =>
          if e ≤ i + la then
            match P.composite i with
            | Except.ok (c, j) => Except.ok (Simple.mk none (some c), j)
            | Except.error e2 => Except.error (max e e2)
          else Except.error e
      -- `Restriction := Comparable ( @(comparator literals) Arg )?`.
      restriction := fun i =>
        match P.comparable i with
        | Except.ok (c, j) =>
          match toks.get? j with
          | some t =>
            match comparatorMap t.val with
            | some cmp =>
              match P.arg (j + 1) with
              | Except.ok (a, k) =>
                Except.ok (Restriction.mk c (some cmp) (some a), k)
              | Except.error e =>
                if e ≤ j + la then Except.ok (Restriction.mk c none none, j)
                else Except.error e
            | none => Except.ok (Restriction.mk c none none, j)
          | none => Except.ok (Restriction.mk c none none, j)
        | Except.error e => Except.error e
      -- `Comparable := Function | Member`: attempt `Function` first, fall
      -- back to `Member` only when the failed `Function` branch is within
      -- the lookahead budget.
      comparable := fun i =>
        match P.function i with
        | Except.ok (fn, j) => Except.ok (Comparable.mk (some fn) none, j)
        | Except.error e =>
          if e ≤ i + la then
            match pMember la toks fuel i with
            | Except.ok (m, j) => Except.ok (Comparable.mk none (some m), j)
            | Except.error e2 => Except.error (max e e2)
          else Except.error e
      -- `Function := @@ ( "." @@ )* "(" ( @@ ( "," @@ )* )? ")"`.
      function := fun i =>
        match pName toks i with
        | Except.ok (n, j) =>
          match pDotNames la toks fuel j with
          | Except.ok (ns, k) =>
            if isLit toks k "(" then
              match P.argsOpt (k + 1) with
              | Except.ok (args2, m) =>
                if isLit toks m ")" then
                  Except.ok (Function.mk (n :: ns) args2, m + 1)
                else Except.error m
              | Except.error e => Except.error e
            else Except.error k
          | Except.error e => Except.error e
        | Except.error e => Except.error e
      -- The optional `( @@ ( "," @@ )* )?` argument list of `Function`.
      argsOpt := fun i =>
        match P.arg i with
        | Except.ok (a, j) =>
          match P.commaArgs j with
          | Except.ok (args2, k) => Except.ok (a :: args2, k)
          | Except.error e => Except.error e
        | Except.error e =>
          if e ≤ i + la then Except.ok ([], i) else Except.error e
      -- The `( "," @@ )*` tail of the argument list.
      commaArgs := fun i =>
        if isLit toks i "," then
          match P.arg (i + 1) with
          | Except.ok (a, j) =>
            match P.commaArgs j with
            | Except.ok (args2, k) => Except.ok (a :: args2, k)
            | Except.error e => Except.error e
          | Except.error e =>
            if e ≤ i + la then Except.ok ([], i) else Except.error e
        else Except.ok ([], i)
      -- `Arg := Comparable | Composite`.
      arg := fun i =>
        match P.comparable i with
        | Except.ok (c, j) => Except.ok (Arg.mk (some c) none, j)
        | Except.error e =>
          if e ≤ i + la then
            match P.composite i with
            | Except.ok (c, j) => Except.ok (Arg.mk none (some c), j)
            | Except.error e2 => Except.error (max e e2)
          else Except.error e
      -- `Composite := "(" Expression ")"`.
      composite := fun i =>
        if isLit toks i "(" then
          match P.expr (i + 1) with
          | Except.ok (ex, j) =>
            if isLit toks j ")" then Except.ok (Composite.mk ex, j + 1)
            else Except.error j
          | Except.error e => Except.error e
        else Except.error i }

/-- `Expression := @@ ( "AND" @@ )*`, at the given fuel level. -/
def pExpression (la : Nat) (toks : List Token) (fuel i : Nat) :
    PRes Expression :=
  (prods la toks fuel).expr i

/-- `Filter := @@*`: zero or more expressions. -/
def pExprsMany (la : Nat) (toks : List Token) :
    Nat → Nat → PRes (List Expression)
  | 0, i => Except.error i
  | fuel + 1, i =>
    match pExpression la toks fuel i with
    | Except.ok (e, j) =>
      match pExprsMany la toks fuel j with
      | Except.ok (es, k) => Except.ok (e :: es, k)
      | Except.error er => Except.error er
    | Except.error er =>
      if er ≤ i + la then Except.ok ([], i) else Except.error er

/-- The two error kinds surfaced by `Parse`: a lexer failure at a character
offset, or a parse failure at a token cursor (which participle reports as
the furthest position reached; the `best effort parse tree` that Go
returns next to the error is diagnostic only and not modelled). -/
inductive PError where
  | lexErr (offset : Nat)
  | parseErr (pos : Nat)
deriving DecidableEq, Repr

/-- `participle.UseLookahead(7)` passed when building `DefaultParser`. -/
def lookahead : Nat := 7

/-- `ParseString` of a parser built over the `Lexer` rules with
`participle.Elide("Whitespace")` and the given lookahead: lex, drop
whitespace tokens, parse a `Filter`, and require all tokens consumed. -/
def ParseWith (la : Nat) (s : String) : Except PError Filter :=
  match lex s with
  | Except.error off => Except.error (PError.lexErr off)
  | Except.ok rawToks =>
    let toks := rawToks.filter fun t => !(t.ty == TokType.whitespace)
    match pExprsMany la toks (32 * toks.length + 64) 0 with
    | Except.ok (es, j) =>
      if j = toks.length then Except.ok (Filter.mk es)
      else Except.error (PError.parseErr j)
    | Except.error e => Except.error (PError.parseErr e)

/-- `func Parse(expression string) (*Filter, error)`, using
`DefaultParser` (lookahead 7). -/
def Parse (s : String) : Except PError Filter :=
  ParseWith lookahead s

/-- The parse of a single bare `Text` word used as a global restriction: a
factor of one non-negated term whose restriction is a field-less member
with that text. -/
def textFactor (s : String) : Factor :=
  Factor.mk [Term.mk false (Simple.mk (some (Restriction.mk
    (Comparable.mk none (some (Member.mk (Value.mk s "") [])))
    none none)) none)]

/-- A member comparable with the given head text and dot-qualified text
fields. -/
def memberComparable (head : String) (fs : List String) : Comparable :=
  Comparable.mk none (some (Member.mk (Value.mk head "")
    (fs.map fun f => Field.mk (some (Value.mk f "")) "")))

/-- A factor holding a single global restriction on the given comparable. -/
def comparableFactor (c : Comparable) : Factor :=
  Factor.mk [Term.mk false (Simple.mk (some (Restriction.mk c none none))
    none)]

/-- A filter of one expression of one sequence with the given factors. -/
def filterOfFactors (fs : List Factor) : Filter :=
  Filter.mk [Expression.mk [Sequence.mk fs]]


example : Parse "" = Except.ok (Filter.mk []) := rfl

example : Parse "a b AND c AND d" =
    Except.ok (filterOfFactors [textFactor "a", textFactor "b",
      textFactor "AND", textFactor "c", textFactor "AND",
      textFactor "d"]) := rfl

example : Parse "a AND" =
    Except.ok (filterOfFactors [textFactor "a", textFactor "AND"]) := rfl

example : Parse "field.type_map.1.val" =
    Except.ok (filterOfFactors [comparableFactor
      (memberComparable "field" ["type_map", "1", "val"])]) := rfl

example : Parse "field.and.val" =
    Except.ok (filterOfFactors [comparableFactor
      (memberComparable "field" ["and", "val"])]) := rfl

example : Parse "func.func(a,b)" =
    Except.ok (filterOfFactors [comparableFactor
      (Comparable.mk (some (Function.mk [Name.mk "func" "", Name.mk "func" ""]
        [Arg.mk (some (memberComparable "a" [])) none,
         Arg.mk (some (memberComparable "b" [])) none])) none)]) := rfl

example : Parse "a.b.c.d.e" = Except.error (PError.parseErr 9) := rfl

example : Parse "'abc\"" =
    Except.ok (filterOfFactors [comparableFactor
      (Comparable.mk none (some (Member.mk (Value.mk "" "'abc\"") [])))]) :=
  rfl

/-! ## The visitor engine (`visitor.go`)

`FilterVisitor` is the six-hook dispatch interface; `Visit` drives the
`Accept` methods.  A hook returning a non-nil error halts the traversal
and the error is returned to the caller; `Except ε Unit` plays the role of
Go's `error` return (with `Except.ok ()` for `nil`). -/

/-- `type FilterVisitor interface` with its six hooks, over an arbitrary
error type `ε`. -/
structure FilterVisitor (ε : Type) where
  visitSequence : Sequence → Except ε Unit
  visitFactor : Factor → Except ε Unit
  visitTerm : Term → Except ε Unit
  visitRestriction : Restriction → Except ε Unit
  visitFunction : Function → Except ε Unit
  visitMember : Member → Except ε Unit

/-- The embedded `if err != nil { return err }` sequencing: run the second
computation only when the first returned nil. -/
def seqE {ε : Type} : Except ε Unit → Except ε Unit → Except ε Unit
  | Except.ok _, y => y
  | Except.error e, _ => Except.error e

/-- A Go `for` loop that `Accept`s each element and returns on the first
non-nil error. -/
def acceptList {ε α : Type} (f : α → Except ε Unit) : List α → Except ε Unit
  | [] => Except.ok ()
  | x :: xs => seqE (f x) (acceptList f xs)

/-- `func (ast *Member) Accept`: returns nil without recursing. -/
def Member.accept {ε : Type} (_v : FilterVisitor ε) (_m : Member) :
    Except ε Unit :=
  Except.ok ()

/-- `func (ast *Function) Accept`: returns nil without recursing. -/
def Function.accept {ε : Type} (_v : FilterVisitor ε) (_f : Function) :
    Except ε Unit :=
  Except.ok ()

/-- `func (ast *Arg) Accept`: returns nil without recursing. -/
def Arg.accept {ε : Type} (_v : FilterVisitor ε) (_a : Arg) :
    Except ε Unit :=
  Except.ok ()

/-- Modelled from the spec: `Composite`'s `Accept` method is not among the
sources (`visitor.go` invokes `ast.Composite.Accept(visitor)` from
`Simple.Accept`, but the method itself is not in the provided files).
Per section 4.3 of the specification a `Composite` is opaque to the
traversal: its interior `Expression` is never auto-traversed and no hook
fires for `Composite` itself, so the method returns nil without doing
anything, like the `Arg`/`Function`/`Member` methods above. -/
def Composite.accept {ε : Type} (_v : FilterVisitor ε) (_c : Composite) :
    Except ε Unit :=
  Except.ok ()

/-- `func (ast *Comparable) Accept`: recurse into the populated variant's
own `Accept` (a no-op), then invoke `VisitFunction` or `VisitMember` on
it; nil field means nil pointer, nothing happens. -/
def Comparable.accept {ε : Type} (v : FilterVisitor ε) :
    Comparable → Except ε Unit
  | Comparable.mk (some fn) _ =>
    seqE (Function.accept v fn) (v.visitFunction fn)
  | Comparable.mk none (some m) =>
    seqE (Member.accept v m) (v.visitMember m)
  | Comparable.mk none none => Except.ok ()

/-- `func (ast *Restriction) Accept`: `Comparable.Accept`, then
`Arg.Accept` (a no-op), then `VisitRestriction`. -/
def Restriction.accept {ε : Type} (v : FilterVisitor ε) (r : Restriction) :
    Except ε Unit :=
  seqE (Comparable.accept v r.comparable)
    (seqE (match r.arg with
      | some a => Arg.accept v a
      | none => Except.ok ())
      (v.visitRestriction r))

/-- `func (ast *Simple) Accept`: recurse into `Restriction` when non-nil,
else into `Composite` when non-nil, else return nil. -/
def Simple.accept {ε : Type} (v : FilterVisitor ε) : Simple → Except ε Unit
  | Simple.mk (some r) _ => Restriction.accept v r
  | Simple.mk none (some c) => Composite.accept v c
  | Simple.mk none none => Except.ok ()

/-- `func (ast *Term) Accept`: `Simple.Accept`, then `VisitTerm`. -/
def Term.accept {ε : Type} (v : FilterVisitor ε) (t : Term) :
    Except ε Unit :=
  seqE (Simple.accept v t.simple) (v.visitTerm t)

/-- `func (ast *Factor) Accept`: each `Term.Accept` in order, then
`VisitFactor`. -/
def Factor.accept {ε : Type} (v : FilterVisitor ε) (f : Factor) :
    Except ε Unit :=
  seqE (acceptList (Term.accept v) f.term) (v.visitFactor f)

/-- `func (ast *Sequence) Accept`: each `Factor.Accept` in order, then
`VisitSequence`. -/
def Sequence.accept {ε : Type} (v : FilterVisitor ε) (s : Sequence) :
    Except ε Unit :=
  seqE (acceptList (Factor.accept v) s.factor) (v.visitSequence s)

/-- `func (ast *Expression) Accept`: each `Sequence.Accept` in order; no
hook of its own. -/
def Expression.accept {ε : Type} (v : FilterVisitor ε) (e : Expression) :
    Except ε Unit :=
  acceptList (Sequence.accept v) e.sequence

/-- `func (ast *Filter) Accept`: each `Expression.Accept` in order; no
hook of its own. -/
def Filter.accept {ε : Type} (v : FilterVisitor ε) (f : Filter) :
    Except ε Unit :=
  acceptList (Expression.accept v) f.expression

/-- `func Visit(ast *Filter, visitor FilterVisitor) error`. -/
def Visit {ε : Type} (ast : Filter) (visitor : FilterVisitor ε) :
    Except ε Unit :=
  Filter.accept visitor ast

/-! ### Hook-invocation traces

`Event` records one hook invocation together with the node it is invoked
on.  The trace functions compute, for each node, the exact sequence of
hook invocations its `Accept` performs; the factorization lemmas below
prove that every `Accept` equals replaying its trace against the visitor,
which makes the traversal order and the set of visited nodes explicit. -/

/-- One hook invocation: which hook, applied to which node. -/
inductive Event where
  | seqEv (s : Sequence)
  | facEv (f : Factor)
  | termEv (t : Term)
  | restrEv (r : Restriction)
  | funcEv (fn : Function)
  | membEv (m : Member)

/-- Apply the hook an event stands for. -/
def applyEvent {ε : Type} (v : FilterVisitor ε) : Event → Except ε Unit
  | Event.seqEv s => v.visitSequence s
  | Event.facEv f => v.visitFactor f
  | Event.termEv t => v.visitTerm t
  | Event.restrEv r => v.visitRestriction r
  | Event.funcEv fn => v.visitFunction fn
  | Event.membEv m => v.visitMember m

/-- Replay a trace: invoke each event's hook in order, stopping at the
first error, which is returned unchanged. -/
def runTrace {ε : Type} (v : FilterVisitor ε) : List Event → Except ε Unit
  | [] => Except.ok ()
  | e :: es => seqE (applyEvent v e) (runTrace v es)

def flatTraces {α : Type} (f : α → List Event) : List α → List Event
  | [] => []
  | x :: xs => f x ++ flatTraces f xs

/-- Trace of `Comparable.accept`: exactly one event for the populated
variant (none when both fields are nil). -/
def comparableTrace : Comparable → List Event
  | Comparable.mk (some fn) _ => [Event.funcEv fn]
  | Comparable.mk none (some m) => [Event.membEv m]
  | Comparable.mk none none => []

/-- Trace of `Restriction.accept`: the comparable's event, then the
restriction's own; nothing from its `Arg`. -/
def restrictionTrace (r : Restriction) : List Event :=
  comparableTrace r.comparable ++ [Event.restrEv r]

/-- Trace of `Simple.accept`: the restriction's trace when populated;
nothing at all for a composite. -/
def simpleTrace : Simple → List Event
  | Simple.mk (some r) _ => restrictionTrace r
  | Simple.mk none _ => []

/-- Trace of `Term.accept`. -/
def termTrace (t : Term) : List Event :=
  simpleTrace t.simple ++ [Event.termEv t]

/-- Trace of `Factor.accept`. -/
def factorTrace (f : Factor) : List Event :=
  flatTraces termTrace f.term ++ [Event.facEv f]

/-- Trace of `Sequence.accept`. -/
def sequenceTrace (s : Sequence) : List Event :=
  flatTraces factorTrace s.factor ++ [Event.seqEv s]

/-- Trace of `Expression.accept`: no event of its own. -/
def expressionTrace (e : Expression) : List Event :=
  flatTraces sequenceTrace e.sequence

/-- Trace of `Filter.accept` (that is, of `Visit`): no event of its own. -/
def filterTrace (f : Filter) : List Event :=
  flatTraces expressionTrace f.expression

theorem seqE_assoc {ε : Type} (x y z : Except ε Unit) :
    seqE (seqE x y) z = seqE x (seqE y z) := by
  cases x <;> rfl

theorem seqE_ok_left {ε : Type} (y : Except ε Unit) :
    seqE (Except.ok ()) y = y := rfl

theorem seqE_ok_right {ε : Type} (x : Except ε Unit) :
    seqE x (Except.ok ()) = x := by
  cases x with
  | ok a => cases a; rfl
  | error e => rfl

theorem runTrace_append {ε : Type} (v : FilterVisitor ε) (a b : List Event) :
    runTrace v (a ++ b) = seqE (runTrace v a) (runTrace v b) := by
  induction a with
  | nil => rfl
  | cons e es ih => simp [runTrace, ih, seqE_assoc]

theorem runTrace_single {ε : Type} (v : FilterVisitor ε) (e : Event) :
    runTrace v [e] = applyEvent v e := by
  simp [runTrace, seqE_ok_right]

theorem comparable_accept_eq {ε : Type} (v : FilterVisitor ε)
    (c : Comparable) :
    Comparable.accept v c = runTrace v (comparableTrace c) := by
  cases c with
  | mk fo mo =>
    cases fo <;> cases mo <;>
      simp [Comparable.accept, comparableTrace, runTrace_single, runTrace,
        Function.accept, Member.accept, applyEvent, seqE_ok_left,
        seqE_ok_right]

theorem restriction_accept_eq {ε : Type} (v : FilterVisitor ε)
    (r : Restriction) :
    Restriction.accept v r = runTrace v (restrictionTrace r) := by
  cases r with
  | mk c cmp a =>
    cases a <;>
      simp [Restriction.accept, restrictionTrace, runTrace_append,
        runTrace_single, comparable_accept_eq, Arg.accept,
        Restriction.comparable, Restriction.arg, applyEvent,
        seqE_ok_left, seqE_ok_right]

theorem simple_accept_eq {ε : Type} (v : FilterVisitor ε) (s : Simple) :
    Simple.accept v s = runTrace v (simpleTrace s) := by
  cases s with
  | mk ro co =>
    cases ro with
    | some r => simp [Simple.accept, simpleTrace, restriction_accept_eq]
    | none =>
      cases co <;> simp [Simple.accept, simpleTrace, Composite.accept,
        runTrace]

theorem term_accept_eq {ε : Type} (v : FilterVisitor ε) (t : Term) :
    Term.accept v t = runTrace v (termTrace t) := by
  simp [Term.accept, termTrace, runTrace_append, runTrace_single,
    simple_accept_eq, applyEvent]

theorem acceptList_eq {ε α : Type} (v : FilterVisitor ε)
    (g : α → Except ε Unit) (tr : α → List Event)
    (h : ∀ x, g x = runTrace v (tr x)) :
    ∀ l, acceptList g l = runTrace v (flatTraces tr l) := by
  intro l
  induction l with
  | nil => rfl
  | cons x xs ih => simp [acceptList, flatTraces, runTrace_append, h, ih]

theorem factor_accept_eq {ε : Type} (v : FilterVisitor ε) (f : Factor) :
    Factor.accept v f = runTrace v (factorTrace f) := by
  simp [Factor.accept, factorTrace, runTrace_append, runTrace_single,
    applyEvent, acceptList_eq v (Term.accept v) termTrace (term_accept_eq v)]

theorem sequence_accept_eq {ε : Type} (v : FilterVisitor ε) (s : Sequence) :
    Sequence.accept v s = runTrace v (sequenceTrace s) := by
  simp [Sequence.accept, sequenceTrace, runTrace_append, runTrace_single,
    applyEvent,
    acceptList_eq v (Factor.accept v) factorTrace (factor_accept_eq v)]

theorem expression_accept_eq {ε : Type} (v : FilterVisitor ε)
    (e : Expression) :
    Expression.accept v e = runTrace v (expressionTrace e) := by
  simp [Expression.accept, expressionTrace,
    acceptList_eq v (Sequence.accept v) sequenceTrace (sequence_accept_eq v)]

/-- Factorization of the traversal: running `Visit` is exactly replaying
the filter's hook-invocation trace against the visitor. -/
theorem visit_eq_runTrace {ε : Type} (ast : Filter) (v : FilterVisitor ε) :
    Visit ast v = runTrace v (filterTrace ast) := by
  simp [Visit, Filter.accept, filterTrace,
    acceptList_eq v (Expression.accept v) expressionTrace
      (expression_accept_eq v)]

/-! ## The claims -/

/-- Claim C1 is refuted by the code: `Parse "a b AND c AND d"` does not
split at `AND`.  Because the lexer's `Text` rule precedes its `Keyword`
rule, `AND` lexes as an ordinary `Text` token, `Value`'s `@Text` matches
it, and `Sequence`'s greedy `Factor+` absorbs it as a bare global
restriction before `Expression`'s `( "AND" Sequence )*` group can see it.
The result is one Expression holding one Sequence of six Factors, with
`AND` itself appearing twice as a Factor's Value — not three Sequences. -/
theorem c1_and_absorbed_as_factor :
    Parse "a b AND c AND d" =
      Except.ok (filterOfFactors [textFactor "a", textFactor "b",
        textFactor "AND", textFactor "c", textFactor "AND",
        textFactor "d"]) :=
  rfl

/-- Claim C2, counterexample to "regardless of the chain's length": a
five-segment dotted chain not followed by `(` does not parse as a Member;
the failed Function attempt has consumed nine tokens, beyond the
seven-token lookahead budget, so the failure is fatal and `Parse` reports
an error at the chain's end instead of backtracking. -/
theorem c2_counterexample_long_chain :
    Parse "a.b.c.d.e" = Except.error (PError.parseErr 9) :=
  rfl

/-- Claim C2 as amended: the Function/Member ambiguity is resolved by
whether `(` follows the chain only while the failed Function attempt stays
within `DefaultParser`'s seven-token lookahead (up to four dot-joined
segments): `field.type_map.1.val` parses as a Member with head `field` and
three Fields and never a Function, `func.func(a,b)` parses as a Function,
but a five-segment chain without `(` makes `Parse` fail rather than yield
a Member. -/
theorem c2_amended_lookahead_bounded :
    Parse "field.type_map.1.val" =
        Except.ok (filterOfFactors [comparableFactor
          (memberComparable "field" ["type_map", "1", "val"])]) ∧
      Parse "func.func(a,b)" =
        Except.ok (filterOfFactors [comparableFactor
          (Comparable.mk (some (Function.mk
            [Name.mk "func" "", Name.mk "func" ""]
            [Arg.mk (some (memberComparable "a" [])) none,
             Arg.mk (some (memberComparable "b" [])) none])) none)]) ∧
      Parse "a.b.c.d.e" = Except.error (PError.parseErr 9) :=
  ⟨rfl, rfl, rfl⟩

/-- Claim C3: parenthesized sub-expressions are invisible to the visitor.
`Visit` is the replay of `filterTrace`, and wherever the traversal reaches
a Composite — through a `Simple` holding one, or opaquely inside an
`Arg` — no hook at all is invoked and no event is contributed, whatever
the interior Expression is; so no callback is ever invoked on any node
contained in a Composite's interior. -/
theorem c3_composite_interior_invisible :
    (∀ (ε : Type) (v : FilterVisitor ε) (ast : Filter),
      Visit ast v = runTrace v (filterTrace ast)) ∧
      (∀ (ε : Type) (v : FilterVisitor ε) (e : Expression),
        Simple.accept v (Simple.mk none (some (Composite.mk e))) =
          Except.ok ()) ∧
      (∀ e : Expression,
        simpleTrace (Simple.mk none (some (Composite.mk e))) = []) ∧
      (∀ (ε : Type) (v : FilterVisitor ε) (a : Arg),
        Arg.accept v a = Except.ok ()) :=
  ⟨fun _ v ast => visit_eq_runTrace ast v,
   fun _ _ _ => rfl, fun _ => rfl, fun _ _ _ => rfl⟩

/-- Claim C4: a hook returning a non-nil error aborts the traversal at
once.  If the filter's trace splits as `pre ++ e :: post` with every hook
of `pre` returning nil and the hook of `e` returning the error `x`, then
`Visit` returns exactly `x` — whatever hooks `post` would have invoked
(they are never consulted). -/
theorem c4_hook_error_short_circuits {ε : Type} (v : FilterVisitor ε)
    (ast : Filter) (pre : List Event) (e : Event) (post : List Event)
    (x : ε) (hsplit : filterTrace ast = pre ++ e :: post)
    (hpre : runTrace v pre = Except.ok ())
    (herr : applyEvent v e = Except.error x) :
    Visit ast v = Except.error x := by
  rw [visit_eq_runTrace, hsplit, runTrace_append, hpre, seqE_ok_left]
  simp [runTrace, herr, seqE]

/-- A visitor whose `VisitFactor` hook always fails with `"boom"` and
whose other hooks do nothing, for the C4 witness. -/
def factorBoomVisitor : FilterVisitor String where
  visitSequence := fun _ => Except.ok ()
  visitFactor := fun _ => Except.error "boom"
  visitTerm := fun _ => Except.ok ()
  visitRestriction := fun _ => Except.ok ()
  visitFunction := fun _ => Except.ok ()
  visitMember := fun _ => Except.ok ()

/-- Witness for C4 at the filter `a`: the member, restriction and term
hooks return nil, the factor hook errors, and `Visit` returns exactly that
error. -/
theorem c4_witness :
    Visit (filterOfFactors [textFactor "a"]) factorBoomVisitor =
      Except.error "boom" :=
  c4_hook_error_short_circuits factorBoomVisitor
    (filterOfFactors [textFactor "a"])
    [Event.membEv (Member.mk (Value.mk "a" "") []),
     Event.restrEv (Restriction.mk
       (Comparable.mk none (some (Member.mk (Value.mk "a" "") [])))
       none none),
     Event.termEv (Term.mk false (Simple.mk (some (Restriction.mk
       (Comparable.mk none (some (Member.mk (Value.mk "a" "") [])))
       none none)) none))]
    (Event.facEv (textFactor "a"))
    [Event.seqEv (Sequence.mk [textFactor "a"])]
    "boom" rfl rfl rfl

/-- Claim C5: the traversal is a partial post-order.  `Visit` replays the
trace, and the trace of a Sequence is its Factors' traces in order
followed by its own event, a Factor's is its Terms' traces in order then
its own event, a Term's is its Simple's trace then its own event, while
Expression and Filter contribute their children's traces in order with no
event of their own. -/
theorem c5_shallow_post_order :
    (∀ (ε : Type) (v : FilterVisitor ε) (ast : Filter),
      Visit ast v = runTrace v (filterTrace ast)) ∧
      (∀ s : Sequence,
        sequenceTrace s =
          flatTraces factorTrace s.factor ++ [Event.seqEv s]) ∧
      (∀ f : Factor,
        factorTrace f = flatTraces termTrace f.term ++ [Event.facEv f]) ∧
      (∀ t : Term,
        termTrace t = simpleTrace t.simple ++ [Event.termEv t]) ∧
      (∀ e : Expression,
        expressionTrace e = flatTraces sequenceTrace e.sequence) ∧
      (∀ ast : Filter,
        filterTrace ast = flatTraces expressionTrace ast.expression) :=
  ⟨fun _ v ast => visit_eq_runTrace ast v,
   fun _ => rfl, fun _ => rfl, fun _ => rfl, fun _ => rfl, fun _ => rfl⟩

/-- Claim C6: a Restriction's traversal handles its Comparable and then
invokes `VisitRestriction`; the Comparable contributes exactly one event,
`VisitFunction` directly on its Function or `VisitMember` directly on its
Member, whatever those nodes contain; and the `Accept` methods of `Arg`,
`Function` and `Member` do nothing, so no hook ever fires for nodes nested
inside a Restriction's Arg, a Function's Name list or Args, or a Member's
Fields. -/
theorem c6_restriction_shallow_dispatch :
    (∀ (ε : Type) (v : FilterVisitor ε) (r : Restriction),
      Restriction.accept v r =
        runTrace v (comparableTrace r.comparable ++ [Event.restrEv r])) ∧
      (∀ (fn : Function) (mo : Option Member),
        comparableTrace (Comparable.mk (some fn) mo) = [Event.funcEv fn]) ∧
      (∀ m : Member,
        comparableTrace (Comparable.mk none (some m)) = [Event.membEv m]) ∧
      (∀ (ε : Type) (v : FilterVisitor ε) (a : Arg),
        Arg.accept v a = Except.ok ()) ∧
      (∀ (ε : Type) (v : FilterVisitor ε) (fn : Function),
        Function.accept v fn = Except.ok ()) ∧
      (∀ (ε : Type) (v : FilterVisitor ε) (m : Member),
        Member.accept v m = Except.ok ()) :=
  ⟨fun _ v r => restriction_accept_eq v r,
   fun _ _ => rfl, fun _ => rfl, fun _ _ _ => rfl, fun _ _ _ => rfl,
   fun _ _ _ => rfl⟩

/-- Claim C7 is refuted by the code: `Parse "a AND"` succeeds.  `AND`
lexes as a `Text` token (the `Text` rule precedes `Keyword`), so the
trailing `AND` is absorbed as an ordinary bare-comparable Factor and the
whole input parses without error — no `ParseError` referencing the
position after `AND` is produced. -/
theorem c7_trailing_and_accepted :
    Parse "a AND" =
      Except.ok (filterOfFactors [textFactor "a", textFactor "AND"]) :=
  rfl

/-- Claim C8: lowercase `and` is no keyword.  `Parse "field.and.val"`
succeeds with a Member whose head Value has Text `field` and whose two
Fields are the ordinary text Values `and` and `val` in order (each a
`Field` with its `value` alternative populated, not its `keyword`). -/
theorem c8_lowercase_and_is_text :
    Parse "field.and.val" =
      Except.ok (filterOfFactors [comparableFactor
        (memberComparable "field" ["and", "val"])]) :=
  rfl

/-- Claim C9: the empty string is a valid filter: `Parse ""` returns a
Filter with an empty Expression list and no error of either kind. -/
theorem c9_empty_input_valid :
    Parse "" = Except.ok (Filter.mk []) :=
  rfl

/-- Claim C10: the String token rule does not require the closing quote to
match the opening one: `'abc"` — opened with a single quote, closed with a
double quote — lexes as one String token spanning the whole input, and
`Parse` accepts it as a quoted String Value without error. -/
theorem c10_mismatched_quotes_accepted :
    lex "'abc\"" = Except.ok [Token.mk TokType.str "'abc\""] ∧
      Parse "'abc\"" =
        Except.ok (filterOfFactors [comparableFactor
          (Comparable.mk none
            (some (Member.mk (Value.mk "" "'abc\"") [])))]) :=
  ⟨rfl, rfl⟩

end FilterExpr
